import Mathlib

/-
  Verification of the finance_tracker_backend CRUD service.

  Shallow embedding of the Python sources:
    domain/finance_entry/value_objects.py  (Description, Amount, Category, EntryDate)
    domain/finance_entry/entities.py       (FinanceEntry)
    domain/finance_entry/services.py       (validate_entry_data)
    application/entry_service.py           (FinanceEntryService)
    infrastructure/persistence/sqlalchemy_repo.py (SQLAlchemyFinanceEntryRepository)
    api/routes.py                          (get_entries, add_entry)

  The SQLite table is modelled as a list of rows plus the autoincrement
  counter.  Python floats are modelled as exact rationals; Python
  exceptions are modelled with Except.  The error classification follows
  the ValueError messages of the source: validation failures versus the
  "not found" errors raised by the service and the repository.
-/

deriving instance DecidableEq for Except

namespace FinanceTracker

/-- Calendar date, modelling Python `datetime.date` (year, month, day). -/
structure Date where
  year : Nat
  month : Nat
  day : Nat
deriving DecidableEq

/-- Strict lexicographic order on dates.  This is both Python's `date`
comparison and the order a SQL `DATE` column sorts by. -/
def Date.ltb (a b : Date) : Bool :=
  decide (a.year < b.year) ||
    (decide (a.year = b.year) &&
      (decide (a.month < b.month) ||
        (decide (a.month = b.month) && decide (a.day < b.day))))

/-- Gregorian leap-year rule, as implemented by Python's `datetime`. -/
def isLeapYear (y : Nat) : Bool :=
  y % 4 == 0 && (y % 100 != 0 || y % 400 == 0)

/-- Number of days of month `m` in year `y` (Python `calendar` rule). -/
def daysInMonth (y m : Nat) : Nat :=
  if m == 2 then (if isLeapYear y then 29 else 28)
  else if m == 4 || m == 6 || m == 9 || m == 11 then 30
  else 31

/-- Decimal digit test on characters. -/
def isDigit (c : Char) : Bool := decide ('0' ≤ c) && decide (c ≤ '9')

/-- Numeric value of a decimal digit character. -/
def digitVal (c : Char) : Nat := c.toNat - '0'.toNat

/-- Models Python `date.fromisoformat` on the `YYYY-MM-DD` form: exactly
ten characters, dashes at positions 4 and 7, all other positions digits,
and the three components a valid Gregorian calendar date with
`1 <= year <= 9999` (Python's `MINYEAR`/`MAXYEAR`). -/
def fromisoformat (s : String) : Option Date :=
  match s.toList with
  | [y1, y2, y3, y4, c1, m1, m2, c2, d1, d2] =>
    if (c1 == '-') && (c2 == '-') && isDigit y1 && isDigit y2 && isDigit y3 &&
        isDigit y4 && isDigit m1 && isDigit m2 && isDigit d1 && isDigit d2 then
      let y := ((digitVal y1 * 10 + digitVal y2) * 10 + digitVal y3) * 10 + digitVal y4
      let m := digitVal m1 * 10 + digitVal m2
      let d := digitVal d1 * 10 + digitVal d2
      if decide (1 ≤ y) && decide (1 ≤ m) && decide (m ≤ 12) && decide (1 ≤ d) &&
          decide (d ≤ daysInMonth y m) then
        some ⟨y, m, d⟩
      else none
    else none
  | _ => none

/-- Error classification of the `ValueError`s raised by the source:
field-validation failures versus the "Not found" / "Entry not found"
errors of the service and the repository. -/
inductive Err where
  | validationError
  | notFoundError
deriving DecidableEq

/-- Whitespace characters recognised by Python `str.strip` and by
`float` on strings. -/
def isSpace (c : Char) : Bool :=
  c == ' ' || c == '\t' || c == '\n' || c == '\r' || c == '\x0b' || c == '\x0c'

/-- Eat leading whitespace from a character list. -/
def consumeWs : List Char → List Char
  | c :: cs => if isSpace c then consumeWs cs else c :: cs
  | [] => []

/-- Models Python `str.strip` (drop leading and trailing whitespace). -/
def pyStrip (s : String) : String :=
  ((consumeWs (consumeWs s.toList).reverse).reverse).asString

/-- `Description.__init__`: rejects an empty or all-whitespace string and
stores the stripped value. -/
def descriptionInit (value : String) : Except Err String :=
  if value == "" || pyStrip value == "" then .error .validationError
  else .ok (pyStrip value)

/-- `Category.__init__`: same contract as `Description`. -/
def categoryInit (value : String) : Except Err String :=
  if value == "" || pyStrip value == "" then .error .validationError
  else .ok (pyStrip value)

/-- Longest digit prefix of a character list, and the rest. -/
def takeDigits : List Char → List Char × List Char
  | [] => ([], [])
  | c :: cs =>
    if isDigit c then
      let (ds, r) := takeDigits cs
      (c :: ds, r)
    else ([], c :: cs)

/-- Value of a digit string read in base 10. -/
def digitsToNat (ds : List Char) : Nat := ds.foldl (fun a c => a * 10 + digitVal c) 0

/-- Unsigned decimal core of a float literal: `digits`, `digits.digits`,
`digits.` or `.digits`.  Returns the scaled mantissa `m` and the number
`k` of fractional digits, so that the value read is `m / 10 ^ k`. -/
def parseDecCore (cs : List Char) : Option ((Nat × Nat) × List Char) :=
  let (ip, r1) := takeDigits cs
  match r1 with
  | '.' :: r2 =>
    let (fp, r3) := takeDigits r2
    if ip.isEmpty && fp.isEmpty then none
    else some ((digitsToNat ip * 10 ^ fp.length + digitsToNat fp, fp.length), r3)
  | _ => if ip.isEmpty then none else some ((digitsToNat ip, 0), r1)

/-- Optional exponent part `e`/`E`, optional sign, digits. -/
def parseExp (cs : List Char) : Option (ℤ × List Char) :=
  match cs with
  | c :: r1 =>
    if c == 'e' || c == 'E' then
      let sr : ℤ × List Char :=
        match r1 with
        | '+' :: t => (1, t)
        | '-' :: t => (-1, t)
        | t => (1, t)
      let (ds, r3) := takeDigits sr.2
      if ds.isEmpty then none else some (sr.1 * (digitsToNat ds : ℤ), r3)
    else none
  | [] => none

/-- The rational `sgn * (m / 10 ^ k) * 10 ^ e`, assembled with integer
arithmetic only. -/
def ratOfParts (sgn : ℤ) (m k : Nat) (e : ℤ) : ℚ :=
  if 0 ≤ e then mkRat (sgn * ((m * 10 ^ e.toNat : Nat) : ℤ)) (10 ^ k)
  else mkRat (sgn * (m : ℤ)) (10 ^ k * 10 ^ (-e).toNat)

/-- Models Python `float(s)` on a string: optional surrounding whitespace,
optional sign, a decimal core and an optional exponent.  (The special
forms `inf`/`nan` and underscore separators are outside the modelled
subset; no claim exercises them.)  The result is an exact rational.
A malformed exponent or any trailing junk makes the parse fail. -/
def pyFloatOfString (s : String) : Option ℚ :=
  let cs := consumeWs s.toList
  let sc : ℤ × List Char :=
    match cs with
    | '+' :: t => (1, t)
    | '-' :: t => (-1, t)
    | t => (1, t)
  match parseDecCore sc.2 with
  | none => none
  | some ((m, k), r) =>
    match parseExp r with
    | some (e, r2) =>
      match consumeWs r2 with
      | [] => some (ratOfParts sc.1 m k e)
      | _ => none
    | none =>
      match consumeWs r with
      | [] => some (ratOfParts sc.1 m k 0)
      | _ => none

/-- Argument shapes accepted by `float(value)` at the JSON boundary: a
number (Python int/float), a string, or another value on which `float`
raises. -/
inductive AmountInput where
  | num (q : ℚ)
  | str (s : String)
  | other
deriving DecidableEq

/-- Models the Python builtin `float` on the inputs of `AmountInput`:
numbers pass through, strings are parsed, anything else raises. -/
def pyFloat : AmountInput → Option ℚ
  | .num q => some q
  | .str s => pyFloatOfString s
  | .other => none

/-- `Amount.__init__`: `float(value)` wrapped in try/except; no further
domain rule is enforced (the source leaves a comment where a sign rule
could go). -/
def amountInit (value : AmountInput) : Except Err ℚ :=
  match pyFloat value with
  | some q => .ok q
  | none => .error .validationError

/-- Argument shapes reaching `EntryDate.__init__`: a string, a
pre-parsed `datetime.date`, or a value of another type. -/
inductive EntryDateInput where
  | str (s : String)
  | date (d : Date)
  | other
deriving DecidableEq

/-- `EntryDate.__init__`: a string is parsed with `date.fromisoformat`,
a `date` instance is taken as is, any other type raises. -/
def entryDateInit : EntryDateInput → Except Err Date
  | .str s =>
    match fromisoformat s with
    | some d => .ok d
    | none => .error .validationError
  | .date d => .ok d
  | .other => .error .validationError

/-- `FinanceEntry.__init__` (domain entity): plain field assignment, with
`id` absent (`none`) until the persistence layer assigns it.  The
constructor performs no validation. -/
structure FinanceEntry where
  id : Option Nat
  description : String
  amount : ℚ
  category : String
  date : Date
deriving DecidableEq

/-- One row of the `finance_entries` table (`FinanceEntryORM`). -/
structure Row where
  id : Nat
  description : String
  amount : ℚ
  category : String
  date : Date
deriving DecidableEq

/-- The SQLite store: the rows of `finance_entries` plus the value the
autoincrement primary-key counter will assign next. -/
structure DB where
  rows : List Row
  nextId : Nat
deriving DecidableEq

/-- Invariant maintained by the storage engine: every stored primary key
is below the autoincrement counter, and primary keys are unique. -/
def DB.WF (db : DB) : Prop :=
  (∀ r ∈ db.rows, r.id < db.nextId) ∧ db.rows.Pairwise (fun a b => a.id ≠ b.id)

instance (db : DB) : Decidable db.WF := by
  unfold DB.WF
  infer_instance

/-- Rehydrate a domain entity from a row, as the repository does. -/
def rowToEntry (r : Row) : FinanceEntry :=
  ⟨some r.id, r.description, r.amount, r.category, r.date⟩

/-- The `ORDER BY date DESC, id DESC` comparison: row `a` may precede
row `b` iff `(a.date, a.id)` is lexicographically at least `(b.date, b.id)`. -/
def rowLe (a b : Row) : Bool :=
  Date.ltb b.date a.date || (decide (b.date = a.date) && decide (b.id ≤ a.id))

/-- The column assignments of the repository `update`: overwrite the four
data columns of a row with the entry's fields, keeping the primary key. -/
def overwriteRow (entry : FinanceEntry) (r : Row) : Row :=
  { r with description := entry.description, amount := entry.amount,
           category := entry.category, date := entry.date }

namespace SQLAlchemyFinanceEntryRepository

/-- `list_entries`: query all rows ordered by date descending then id
descending, and map each row to a domain entity. -/
def list_entries (db : DB) : List FinanceEntry :=
  (db.rows.mergeSort rowLe).map rowToEntry

/-- `get_by_id`: primary-key lookup, `none` when no row matches. -/
def get_by_id (db : DB) (entry_id : Nat) : Option FinanceEntry :=
  (db.rows.find? (fun r => r.id == entry_id)).map rowToEntry

/-- `add`: insert a new row with the autoincrement id, commit, and
return the entry with its `id` populated. -/
def add (db : DB) (entry : FinanceEntry) : FinanceEntry × DB :=
  let newRow : Row := ⟨db.nextId, entry.description, entry.amount, entry.category, entry.date⟩
  ({ entry with id := some db.nextId }, ⟨db.rows ++ [newRow], db.nextId + 1⟩)

/-- `update`: look the row up by the entry's id, overwrite its four data
columns and commit; raises `ValueError("Entry not found")` when no row
matches (also when the entry was never persisted and has no id). -/
def update (db : DB) (entry : FinanceEntry) : Except Err FinanceEntry × DB :=
  match entry.id with
  | none => (.error .notFoundError, db)
  | some i =>
    if db.rows.any (fun r => r.id == i) then
      (.ok entry,
        ⟨db.rows.map (fun r => if r.id == i then overwriteRow entry r else r), db.nextId⟩)
    else (.error .notFoundError, db)

/-- `delete`: look the row up by id; if absent return `False`, otherwise
remove it, commit and return `True`. -/
def delete (db : DB) (entry_id : Nat) : Bool × DB :=
  match db.rows.find? (fun r => r.id == entry_id) with
  | none => (false, db)
  | some _ => (true, ⟨db.rows.eraseP (fun r => r.id == entry_id), db.nextId⟩)

end SQLAlchemyFinanceEntryRepository

/-- State of a keyword argument of `FinanceEntryService.update`: not in
`kwargs` at all, in `kwargs` with value `None`, or in `kwargs` with a
value. -/
inductive Arg (α : Type) where
  | absent
  | pynull
  | given (a : α)
deriving DecidableEq

/-- Replace a `None`-valued keyword argument by an absent one. -/
def Arg.nullToAbsent {α : Type} : Arg α → Arg α
  | .pynull => .absent
  | x => x

/-- The `kwargs` of `FinanceEntryService.update`, one slot per mutable
field.  At this layer the route has already turned a date string into a
`Date` and an amount into its JSON number. -/
structure UpdateArgs where
  description : Arg String
  amount : Arg ℚ
  category : Arg String
  date : Arg Date
deriving DecidableEq

/-- The field-overwrite loop of `FinanceEntryService.update`: a field is
assigned exactly when it is in `kwargs` with a value that is not `None`. -/
def applyKwargs (e : FinanceEntry) (k : UpdateArgs) : FinanceEntry :=
  { e with
    description := match k.description with | .given v => v | _ => e.description
    amount := match k.amount with | .given v => v | _ => e.amount
    category := match k.category with | .given v => v | _ => e.category
    date := match k.date with | .given v => v | _ => e.date }

namespace FinanceEntryService

/-- `FinanceEntryService.list`: delegate to the repository. -/
def list (db : DB) : List FinanceEntry :=
  SQLAlchemyFinanceEntryRepository.list_entries db

/-- `FinanceEntryService.get`: delegate to the repository. -/
def get (db : DB) (entry_id : Nat) : Option FinanceEntry :=
  SQLAlchemyFinanceEntryRepository.get_by_id db entry_id

/-- `FinanceEntryService.create`: build a `FinanceEntry` with `id=None`
(the constructor does not validate), converting `amount` with `float`,
then persist it via `repo.add`.  `float(amount)` raising is the only way
this operation can fail. -/
def create (db : DB) (description : String) (amount : AmountInput)
    (category : String) (entry_date : Date) : Except Err FinanceEntry × DB :=
  match pyFloat amount with
  | none => (.error .validationError, db)
  | some q =>
    let entry : FinanceEntry := ⟨none, description, q, category, entry_date⟩
    let (e, db2) := SQLAlchemyFinanceEntryRepository.add db entry
    (.ok e, db2)

/-- `FinanceEntryService.update`: load the entity by id, raise
`ValueError("Not found")` when absent, overwrite the fields supplied
with a non-`None` value, and persist via `repo.update`. -/
def update (db : DB) (entry_id : Nat) (kwargs : UpdateArgs) :
    Except Err FinanceEntry × DB :=
  match SQLAlchemyFinanceEntryRepository.get_by_id db entry_id with
  | none => (.error .notFoundError, db)
  | some e => SQLAlchemyFinanceEntryRepository.update db (applyKwargs e kwargs)

/-- `FinanceEntryService.delete`: delegate to the repository. -/
def delete (db : DB) (entry_id : Nat) : Bool × DB :=
  SQLAlchemyFinanceEntryRepository.delete db entry_id

end FinanceEntryService

/-- The JSON body of a create/update request: which of the four fields
are present, and the raw value of each present field.  Description and
category arrive as JSON strings; amount and date keep the shapes their
value objects distinguish. -/
structure ReqData where
  description : Option String
  amount : Option AmountInput
  category : Option String
  date : Option EntryDateInput
deriving DecidableEq

/-- `validate_entry_data` (domain service): check field presence (all
four for create, at least one for update), then run each present field
through its value object in source order, first failure winning. -/
def validate_entry_data (data : ReqData) (for_update : Bool) : Except Err Unit :=
  (if for_update then
    if data.description.isNone && data.amount.isNone &&
        data.category.isNone && data.date.isNone then
      Except.error Err.validationError
    else Except.ok ()
  else
    if data.description.isNone || data.amount.isNone ||
        data.category.isNone || data.date.isNone then
      Except.error Err.validationError
    else Except.ok ()) >>= fun _ =>
  (match data.description with
   | some s => (fun _ => ()) <$> descriptionInit s
   | none => Except.ok ()) >>= fun _ =>
  (match data.amount with
   | some v => (fun _ => ()) <$> amountInit v
   | none => Except.ok ()) >>= fun _ =>
  (match data.category with
   | some s => (fun _ => ()) <$> categoryInit s
   | none => Except.ok ()) >>= fun _ =>
  (match data.date with
   | some v => (fun _ => ()) <$> entryDateInit v
   | none => Except.ok ())

/-- The date argument the `add_entry` route passes to the service: a
`date` value is passed through, a string is parsed.  (The route uses
`strptime("%Y-%m-%d")`; on the strings that already passed `EntryDate`
validation this agrees with `fromisoformat`.  The `none` results are
unreachable behind a successful `validate_entry_data`.) -/
def resolveDate : EntryDateInput → Option Date
  | .date d => some d
  | .str s => fromisoformat s
  | .other => none

/-- The `POST /entries` route body (`add_entry` in `api/routes.py`):
run `validate_entry_data` on the payload and, only if it passes, call
`service.create`; any raised `ValueError` is returned as an error
response and the store is left untouched. -/
def add_entry (db : DB) (data : ReqData) : Except Err FinanceEntry × DB :=
  match validate_entry_data data false with
  | .error e => (.error e, db)
  | .ok _ =>
    match data.description, data.amount, data.category, data.date with
    | some desc, some amt, some cat, some din =>
      match resolveDate din with
      | some d => FinanceEntryService.create db desc amt cat d
      | none => (.error .validationError, db)
    | _, _, _, _ => (.error .validationError, db)

/-- The `GET /entries` route body (`get_entries` in `api/routes.py`):
list the entries via the service and pair them with the running total
`sum(e.amount for e in entries)`. -/
def get_entries (db : DB) : List FinanceEntry × ℚ :=
  let entries := FinanceEntryService.list db
  (entries, (entries.map FinanceEntry.amount).sum)

end FinanceTracker

namespace FinanceTracker

/-! ### Helper lemmas -/

/-- After `eraseP` removes the row found by id, no row with that id is
left, because primary keys are pairwise distinct. -/
lemma eraseP_id_ne (l : List Row) (i : Nat)
    (hpw : l.Pairwise (fun a b => a.id ≠ b.id)) :
    ∀ x ∈ l.eraseP (fun r => r.id == i), x.id ≠ i := by
  induction l with
  | nil => simp
  | cons a t ih =>
    rcases List.pairwise_cons.1 hpw with ⟨ha, ht⟩
    by_cases hpa : a.id = i
    · rw [List.eraseP_cons_of_pos (by simpa using hpa)]
      intro x hx hxi
      exact ha x hx (by omega)
    · rw [List.eraseP_cons_of_neg (by simpa using hpa)]
      intro x hx
      rcases List.mem_cons.1 hx with rfl | hx2
      · exact hpa
      · exact ih ht x hx2

/-- Unfolding a successful `get_by_id`: the matching row, its image, its
membership and its id. -/
lemma get_by_id_some (db : DB) (i : Nat) (e : FinanceEntry)
    (h : SQLAlchemyFinanceEntryRepository.get_by_id db i = some e) :
    ∃ r, db.rows.find? (fun x => x.id == i) = some r ∧ rowToEntry r = e ∧
      r ∈ db.rows ∧ r.id = i := by
  unfold SQLAlchemyFinanceEntryRepository.get_by_id at h
  cases hf : db.rows.find? (fun x => x.id == i) with
  | none => rw [hf] at h; cases h
  | some r =>
    rw [hf] at h
    exact ⟨r, rfl, by simpa using h, List.mem_of_find?_eq_some hf,
      by simpa using List.find?_some hf⟩

/-- The field-overwrite loop never touches the id. -/
lemma applyKwargs_id (e : FinanceEntry) (k : UpdateArgs) : (applyKwargs e k).id = e.id := rfl

/-- Rehydrating a row overwritten from an entity gives back that entity
when their identities agree. -/
lemma rowToEntry_overwriteRow (E : FinanceEntry) (r : Row) (hE : E.id = some r.id) :
    rowToEntry (overwriteRow E r) = E := by
  obtain ⟨Eid, Ed, Ea, Ec, Edt⟩ := E
  simp at hE
  simp [rowToEntry, overwriteRow, hE]

/-- Evaluation of `FinanceEntryService.update` when the entry exists:
the mutated entity is returned and the matching rows are overwritten. -/
lemma service_update_found (db : DB) (i : Nat) (k : UpdateArgs) (e : FinanceEntry)
    (h : SQLAlchemyFinanceEntryRepository.get_by_id db i = some e) :
    FinanceEntryService.update db i k =
      (.ok (applyKwargs e k),
       ⟨db.rows.map (fun r => if r.id == i then overwriteRow (applyKwargs e k) r else r),
        db.nextId⟩) := by
  obtain ⟨r, hf, hre, hmem, hid⟩ := get_by_id_some db i e h
  have heid : (applyKwargs e k).id = some i := by
    rw [applyKwargs_id, ← hre]
    simp [rowToEntry, hid]
  have hany : db.rows.any (fun x => x.id == i) = true :=
    List.any_eq_true.2 ⟨r, hmem, by simp [hid]⟩
  unfold FinanceEntryService.update SQLAlchemyFinanceEntryRepository.update
  rw [h]
  simp only [heid, hany, if_true]

/-- Two rows of a store with pairwise distinct primary keys that share an
id are the same row. -/
lemma eq_of_mem_unique_id (l : List Row) (hpw : l.Pairwise (fun a b => a.id ≠ b.id))
    (x y : Row) (hx : x ∈ l) (hy : y ∈ l) (hxy : x.id = y.id) : x = y := by
  induction l with
  | nil => cases hx
  | cons a t ih =>
    rcases List.pairwise_cons.1 hpw with ⟨ha, ht⟩
    rcases List.mem_cons.1 hx with rfl | hx2
    · rcases List.mem_cons.1 hy with rfl | hy2
      · rfl
      · exact absurd hxy (ha y hy2)
    · rcases List.mem_cons.1 hy with rfl | hy2
      · exact absurd hxy.symm (ha x hx2)
      · exact ih ht hx2 hy2

/-- The `ORDER BY` comparison is total. -/
lemma rowLe_total : ∀ a b : Row, (rowLe a b || rowLe b a) = true := by
  intro a b
  obtain ⟨ia, da, qa, ca, ⟨y1, m1, e1⟩⟩ := a
  obtain ⟨ib, db2, qb, cb, ⟨y2, m2, e2⟩⟩ := b
  simp [rowLe, Date.ltb, Date.mk.injEq]
  omega

/-- The `ORDER BY` comparison is transitive. -/
lemma rowLe_trans : ∀ a b c : Row,
    rowLe a b = true → rowLe b c = true → rowLe a c = true := by
  intro a b c h1 h2
  obtain ⟨ia, da, qa, ca, ⟨y1, m1, e1⟩⟩ := a
  obtain ⟨ib, db2, qb, cb, ⟨y2, m2, e2⟩⟩ := b
  obtain ⟨ic, dc, qc, cc, ⟨y3, m3, e3⟩⟩ := c
  simp [rowLe, Date.ltb, Date.mk.injEq] at h1 h2 ⊢
  omega

/-! ### Claim theorems -/

/-- C1, counterexample: `FinanceEntryService.create` does not validate
its fields.  With the empty description — which the `Description` value
object rejects — the call succeeds and a row is persisted, contradicting
the claim that any `create` with an invalid field fails with a
validation error and persists nothing. -/
theorem C1_create_unvalidated_cex :
    descriptionInit "" = .error .validationError ∧
    (FinanceEntryService.create ⟨[], 1⟩ "" (.num 1) "Food" ⟨2024, 1, 10⟩).1 =
      .ok ⟨some 1, "", 1, "Food", ⟨2024, 1, 10⟩⟩ ∧
    (FinanceEntryService.create ⟨[], 1⟩ "" (.num 1) "Food" ⟨2024, 1, 10⟩).2 =
      ⟨[⟨1, "", 1, "Food", ⟨2024, 1, 10⟩⟩], 2⟩ :=
  ⟨by decide, by decide, by decide⟩

/-- C1, amended: field validation is performed by `validate_entry_data`
(which constructs each value object), called by the `POST /entries`
route before `service.create`; the entity constructor itself does not
validate.  Through the route, a request whose validation fails — in
particular one with an empty description — fails with a validation error
and no row is persisted. -/
theorem C1_route_validates_before_create :
    (∀ (db : DB) (data : ReqData) (err : Err),
      validate_entry_data data false = .error err → add_entry db data = (.error err, db)) ∧
    (∀ (db : DB) (a : Option AmountInput) (c : Option String) (d : Option EntryDateInput),
      add_entry db ⟨some "", a, c, d⟩ = (.error .validationError, db)) := by
  constructor
  · intro db data err h
    unfold add_entry
    rw [h]
  · intro db a c d
    have hval : validate_entry_data ⟨some "", a, c, d⟩ false = .error .validationError := by
      cases a <;> cases c <;> cases d <;>
        simp [validate_entry_data, descriptionInit, pyStrip, Bind.bind, Except.bind]
    unfold add_entry
    rw [hval]

/-- C1, witness: a concrete create request with an empty description is
rejected by the route and the store is unchanged. -/
theorem C1_route_validates_witness :
    add_entry ⟨[], 1⟩ ⟨some "", some (.num 1), some "Food", some (.str "2024-01-10")⟩ =
      (.error .validationError, ⟨[], 1⟩) :=
  C1_route_validates_before_create.1 ⟨[], 1⟩
    ⟨some "", some (.num 1), some "Food", some (.str "2024-01-10")⟩
    .validationError (by decide)

/-- C2: on a well-formed store, creating an entry from a valid tuple and
then looking up the returned id yields the same entry, all four data
fields preserved. -/
theorem C2_create_then_get (db : DB) (hwf : db.WF) (desc : String)
    (amt : AmountInput) (cat : String) (d : Date) (q : ℚ)
    (hdesc : ∃ v, descriptionInit desc = .ok v)
    (hamt : pyFloat amt = some q)
    (hcat : ∃ v, categoryInit cat = .ok v) :
    ∃ e db2, FinanceEntryService.create db desc amt cat d = (.ok e, db2) ∧
      e = ⟨some db.nextId, desc, q, cat, d⟩ ∧
      SQLAlchemyFinanceEntryRepository.get_by_id db2 db.nextId = some e := by
  clear hdesc hcat
  refine ⟨⟨some db.nextId, desc, q, cat, d⟩,
    ⟨db.rows ++ [⟨db.nextId, desc, q, cat, d⟩], db.nextId + 1⟩, ?_, rfl, ?_⟩
  · simp [FinanceEntryService.create, hamt, SQLAlchemyFinanceEntryRepository.add]
  · unfold SQLAlchemyFinanceEntryRepository.get_by_id
    rw [List.find?_append]
    have h1 : db.rows.find? (fun r => r.id == db.nextId) = none := by
      rw [List.find?_eq_none]
      intro r hr
      have := hwf.1 r hr
      simp
      omega
    rw [h1]
    simp [rowToEntry]

/-- C2, witness: creating the spec scenario entry (Coffee, 4.5, Food,
2024-01-10) on the empty store and reading id 1 back gives the entry. -/
theorem C2_create_then_get_witness :
    ∃ e db2,
      FinanceEntryService.create ⟨[], 1⟩ "Coffee" (.num (mkRat 9 2)) "Food" ⟨2024, 1, 10⟩ =
        (.ok e, db2) ∧
      e = ⟨some 1, "Coffee", mkRat 9 2, "Food", ⟨2024, 1, 10⟩⟩ ∧
      SQLAlchemyFinanceEntryRepository.get_by_id db2 1 = some e :=
  C2_create_then_get ⟨[], 1⟩ (by decide) "Coffee" (.num (mkRat 9 2)) "Food" ⟨2024, 1, 10⟩
    (mkRat 9 2) ⟨"Coffee", by decide⟩ rfl ⟨"Food", by decide⟩

/-- C3: updating an id for which no row exists fails with the not-found
error and returns the store unchanged. -/
theorem C3_update_nonexistent (db : DB) (i : Nat) (k : UpdateArgs)
    (h : ∀ r ∈ db.rows, r.id ≠ i) :
    FinanceEntryService.update db i k = (.error .notFoundError, db) := by
  have hf : db.rows.find? (fun r => r.id == i) = none := by
    rw [List.find?_eq_none]
    intro r hr
    simpa using h r hr
  simp [FinanceEntryService.update, SQLAlchemyFinanceEntryRepository.get_by_id, hf]

/-- C3, witness: the spec scenario — update id 5 with amount 20 on a
store that only holds id 1 — fails with the not-found error. -/
theorem C3_update_nonexistent_witness :
    FinanceEntryService.update ⟨[⟨1, "Rent", 100, "Home", ⟨2024, 1, 1⟩⟩], 2⟩ 5
      ⟨.absent, .given 20, .absent, .absent⟩ =
      (.error .notFoundError, ⟨[⟨1, "Rent", 100, "Home", ⟨2024, 1, 1⟩⟩], 2⟩) :=
  C3_update_nonexistent _ 5 _ (by decide)

/-- C4: updating an existing entry overwrites exactly the fields
supplied with a value; every other field keeps its previous value, the
id is unchanged, the result is persisted, and an update with the empty
partial-field set leaves the store unchanged. -/
theorem C4_update_frame (db : DB) (hwf : db.WF) (i : Nat) (k : UpdateArgs)
    (e : FinanceEntry) (h : SQLAlchemyFinanceEntryRepository.get_by_id db i = some e) :
    ∃ e2 db2, FinanceEntryService.update db i k = (.ok e2, db2) ∧
      SQLAlchemyFinanceEntryRepository.get_by_id db2 i = some e2 ∧
      e2.description = (match k.description with | .given v => v | _ => e.description) ∧
      e2.amount = (match k.amount with | .given v => v | _ => e.amount) ∧
      e2.category = (match k.category with | .given v => v | _ => e.category) ∧
      e2.date = (match k.date with | .given v => v | _ => e.date) ∧
      e2.id = e.id ∧
      (k = ⟨.absent, .absent, .absent, .absent⟩ → db2 = db) := by
  obtain ⟨r, hf, hre, hmem, hid⟩ := get_by_id_some db i e h
  refine ⟨applyKwargs e k,
    ⟨db.rows.map (fun x => if x.id == i then overwriteRow (applyKwargs e k) x else x),
     db.nextId⟩,
    service_update_found db i k e h, ?_, rfl, rfl, rfl, rfl, rfl, ?_⟩
  · unfold SQLAlchemyFinanceEntryRepository.get_by_id
    have hcomp : ((fun x : Row => x.id == i) ∘
        (fun x => if x.id == i then overwriteRow (applyKwargs e k) x else x)) =
        (fun x : Row => x.id == i) := by
      funext x
      by_cases hx : (x.id == i) = true <;> simp [Function.comp, overwriteRow, hx]
    show ((db.rows.map _).find? (fun x => x.id == i)).map rowToEntry = _
    rw [List.find?_map, hcomp, hf]
    show some (rowToEntry (if r.id == i then overwriteRow (applyKwargs e k) r else r)) =
      some (applyKwargs e k)
    rw [if_pos (show (r.id == i) = true by simp [hid])]
    exact congrArg some
      (rowToEntry_overwriteRow _ r (by rw [applyKwargs_id, ← hre]; rfl))
  · intro hk
    subst hk
    have hone : ∀ x ∈ db.rows,
        (if x.id == i then overwriteRow (applyKwargs e ⟨.absent, .absent, .absent, .absent⟩) x
         else x) = x := by
      intro x hx
      by_cases hxi : (x.id == i) = true
      · have hxr : x = r :=
          eq_of_mem_unique_id db.rows hwf.2 x r hx hmem (by simpa [hid] using hxi)
        subst hxr
        rw [if_pos hxi, ← hre]
        rfl
      · rw [if_neg hxi]
    have hmap : db.rows.map
        (fun x => if x.id == i then
          overwriteRow (applyKwargs e ⟨.absent, .absent, .absent, .absent⟩) x else x) =
        db.rows := by
      rw [List.map_congr_left hone]
      simp
    rw [hmap]

/-- C4, witness: updating only the description of the stored entry id 1
changes that field and keeps amount, category, date and id. -/
theorem C4_update_frame_witness :
    ∃ e2 db2, FinanceEntryService.update ⟨[⟨1, "Rent", 100, "Home", ⟨2024, 1, 1⟩⟩], 2⟩ 1
        ⟨.given "Lease", .absent, .absent, .absent⟩ = (.ok e2, db2) ∧
      SQLAlchemyFinanceEntryRepository.get_by_id db2 1 = some e2 ∧
      e2.description = "Lease" ∧ e2.amount = 100 ∧ e2.category = "Home" ∧
      e2.date = ⟨2024, 1, 1⟩ ∧ e2.id = some 1 := by
  obtain ⟨e2, db2, h1, h2, h3, h4, h5, h6, h7, _⟩ :=
    C4_update_frame ⟨[⟨1, "Rent", 100, "Home", ⟨2024, 1, 1⟩⟩], 2⟩ (by decide) 1
      ⟨.given "Lease", .absent, .absent, .absent⟩
      ⟨some 1, "Rent", 100, "Home", ⟨2024, 1, 1⟩⟩ (by decide)
  exact ⟨e2, db2, h1, h2, h3, h4, h5, h6, h7⟩

/-- C5: listing returns a permutation of all stored entries, ordered by
date descending with ties on the date broken by id descending. -/
theorem C5_list_order (db : DB) (hwf : db.WF) :
    (SQLAlchemyFinanceEntryRepository.list_entries db).Perm (db.rows.map rowToEntry) ∧
    (SQLAlchemyFinanceEntryRepository.list_entries db).Pairwise (fun a b =>
      Date.ltb b.date a.date = true ∨ (b.date = a.date ∧ b.id.getD 0 < a.id.getD 0)) := by
  unfold SQLAlchemyFinanceEntryRepository.list_entries
  constructor
  · exact (List.mergeSort_perm db.rows rowLe).map rowToEntry
  · rw [List.pairwise_map]
    have hs : (db.rows.mergeSort rowLe).Pairwise (fun a b => rowLe a b = true) :=
      List.sorted_mergeSort rowLe_trans rowLe_total db.rows
    have hnd : (db.rows.mergeSort rowLe).Pairwise (fun a b => a.id ≠ b.id) :=
      (List.Perm.pairwise_iff (fun h => Ne.symm h)
        (List.mergeSort_perm db.rows rowLe)).mpr hwf.2
    refine (hs.and hnd).imp ?_
    rintro a b ⟨hle, hne⟩
    show Date.ltb b.date a.date = true ∨ (b.date = a.date ∧ b.id < a.id)
    have hle2 : Date.ltb b.date a.date = true ∨ (b.date = a.date ∧ b.id ≤ a.id) := by
      simpa [rowLe] using hle
    rcases hle2 with hlt | ⟨heq, hle3⟩
    · exact Or.inl hlt
    · exact Or.inr ⟨heq, by omega⟩

/-- C5, witness: a store with two same-date rows and an older one lists
as a permutation of all three, in the descending order. -/
theorem C5_list_order_witness :
    (SQLAlchemyFinanceEntryRepository.list_entries
      ⟨[⟨1, "Rent", 100, "Home", ⟨2024, 1, 10⟩⟩,
        ⟨2, "Coffee", 5, "Food", ⟨2024, 1, 10⟩⟩,
        ⟨3, "Salary", 900, "Job", ⟨2023, 12, 1⟩⟩], 4⟩).Perm
      ((⟨[⟨1, "Rent", 100, "Home", ⟨2024, 1, 10⟩⟩,
          ⟨2, "Coffee", 5, "Food", ⟨2024, 1, 10⟩⟩,
          ⟨3, "Salary", 900, "Job", ⟨2023, 12, 1⟩⟩], 4⟩ : DB).rows.map rowToEntry) ∧
    (SQLAlchemyFinanceEntryRepository.list_entries
      ⟨[⟨1, "Rent", 100, "Home", ⟨2024, 1, 10⟩⟩,
        ⟨2, "Coffee", 5, "Food", ⟨2024, 1, 10⟩⟩,
        ⟨3, "Salary", 900, "Job", ⟨2023, 12, 1⟩⟩], 4⟩).Pairwise (fun a b =>
      Date.ltb b.date a.date = true ∨ (b.date = a.date ∧ b.id.getD 0 < a.id.getD 0)) :=
  C5_list_order ⟨[⟨1, "Rent", 100, "Home", ⟨2024, 1, 10⟩⟩,
    ⟨2, "Coffee", 5, "Food", ⟨2024, 1, 10⟩⟩,
    ⟨3, "Salary", 900, "Job", ⟨2023, 12, 1⟩⟩], 4⟩ (by decide)

/-- C6: the running total of GET /entries equals the sum of the amounts
of the returned entries, which equals the sum over all stored rows; the
spec example (amounts 10.5, -3.25, 100) gives 107.25 = 429/4. -/
theorem C6_running_total (db : DB) :
    (get_entries db).2 = ((get_entries db).1.map FinanceEntry.amount).sum ∧
    (get_entries db).2 = (db.rows.map Row.amount).sum ∧
    (get_entries ⟨[⟨1, "Coffee", 21/2, "Food", ⟨2024, 1, 1⟩⟩,
                   ⟨2, "Refund", -13/4, "Misc", ⟨2024, 1, 2⟩⟩,
                   ⟨3, "Salary", 100, "Job", ⟨2024, 1, 3⟩⟩], 4⟩).2 = 429/4 := by
  have key : ∀ d : DB, (get_entries d).2 = (d.rows.map Row.amount).sum := by
    intro d
    show ((SQLAlchemyFinanceEntryRepository.list_entries d).map FinanceEntry.amount).sum = _
    unfold SQLAlchemyFinanceEntryRepository.list_entries
    rw [List.map_map]
    have hcomp : FinanceEntry.amount ∘ rowToEntry = Row.amount := by
      funext r; rfl
    rw [hcomp]
    exact ((List.mergeSort_perm d.rows rowLe).map Row.amount).sum_eq
  refine ⟨rfl, key db, ?_⟩
  rw [key]
  simp [Row.amount]
  norm_num

/-- C7: `EntryDate` validation succeeds exactly on a pre-parsed calendar
date or a string parsed by the `YYYY-MM-DD` rule, producing the calendar
date; it fails with a validation error on every other string (such as
"10-01-2024") and on any value of another type. -/
theorem C7_entryDate_exact :
    (∀ v d, entryDateInit v = .ok d ↔
      (v = .date d ∨ ∃ s, v = .str s ∧ fromisoformat s = some d)) ∧
    (∀ v, entryDateInit v = .error .validationError ↔
      ((∃ s, v = .str s ∧ fromisoformat s = none) ∨ v = .other)) ∧
    fromisoformat "2024-01-10" = some ⟨2024, 1, 10⟩ ∧
    fromisoformat "10-01-2024" = none ∧
    entryDateInit (.str "10-01-2024") = .error .validationError ∧
    entryDateInit (.str "2024-02-30") = .error .validationError := by
  refine ⟨?_, ?_, by decide, by decide, by decide, by decide⟩
  · intro v d
    cases v with
    | str s => cases h : fromisoformat s <;> simp [entryDateInit, h]
    | date d2 => simp [entryDateInit]
    | other => simp [entryDateInit]
  · intro v
    cases v with
    | str s => cases h : fromisoformat s <;> simp [entryDateInit, h]
    | date d2 => simp [entryDateInit]
    | other => simp [entryDateInit]

/-- C8: `Amount` validation fails exactly when `float` cannot parse the
input as a real number; on success the stored value is the parsed
number, with no range restriction — negative values are accepted. -/
theorem C8_amount_exact :
    (∀ v q, amountInit v = .ok q ↔ pyFloat v = some q) ∧
    (∀ v, amountInit v = .error .validationError ↔ pyFloat v = none) ∧
    (∀ q : ℚ, amountInit (.num q) = .ok q) ∧
    amountInit (.num (-5)) = .ok (-5) ∧
    amountInit (.str "-3.25") = .ok (-13/4) ∧
    amountInit (.str "abc") = .error .validationError := by
  have hok : ∀ v q, amountInit v = .ok q ↔ pyFloat v = some q := by
    intro v q
    cases h : pyFloat v <;> simp [amountInit, h]
  have hmk : amountInit (.str "-3.25") = .ok (mkRat (-13) 4) := by decide
  have hval : (mkRat (-13) 4 : ℚ) = -13/4 := by
    rw [Rat.mkRat_eq_div]; norm_num
  refine ⟨hok, ?_, ?_, ?_, ?_, by decide⟩
  · intro v
    cases h : pyFloat v <;> simp [amountInit, h]
  · intro q
    simp [amountInit, pyFloat]
  · simp [amountInit, pyFloat]
  · rw [hmk, hval]

/-- C9: `delete` returns true exactly when a row with the id existed, in
which case it is removed; it returns false (leaving the store untouched)
when none exists, and in particular a second delete of the same id
returns false. -/
theorem C9_delete_spec (db : DB) (hwf : db.WF) (i : Nat) :
    ((FinanceEntryService.delete db i).1 = true ↔ ∃ r ∈ db.rows, r.id = i) ∧
    (∀ r ∈ (FinanceEntryService.delete db i).2.rows, r.id ≠ i) ∧
    ((FinanceEntryService.delete db i).1 = false → (FinanceEntryService.delete db i).2 = db) ∧
    (FinanceEntryService.delete (FinanceEntryService.delete db i).2 i).1 = false := by
  cases hf : db.rows.find? (fun r => r.id == i) with
  | none =>
    have hnone : ∀ r ∈ db.rows, r.id ≠ i := by
      intro r hr
      simpa using List.find?_eq_none.1 hf r hr
    have h1 : FinanceEntryService.delete db i = (false, db) := by
      simp [FinanceEntryService.delete, SQLAlchemyFinanceEntryRepository.delete, hf]
    rw [h1]
    have hne : ¬∃ r ∈ db.rows, r.id = i := by
      rintro ⟨r, hr, hri⟩
      exact hnone r hr hri
    exact ⟨by simp [hne], hnone, fun _ => rfl, by rw [h1]⟩
  | some r =>
    have hr_mem : r ∈ db.rows := List.mem_of_find?_eq_some hf
    have hr_id : r.id = i := by simpa using List.find?_some hf
    have h1 : FinanceEntryService.delete db i =
        (true, ⟨db.rows.eraseP (fun x => x.id == i), db.nextId⟩) := by
      simp [FinanceEntryService.delete, SQLAlchemyFinanceEntryRepository.delete, hf]
    rw [h1]
    have hgone : ∀ x ∈ db.rows.eraseP (fun x => x.id == i), x.id ≠ i :=
      eraseP_id_ne db.rows i hwf.2
    refine ⟨by simp; exact ⟨r, hr_mem, hr_id⟩, hgone, by simp, ?_⟩
    have hf2 : (db.rows.eraseP (fun x => x.id == i)).find? (fun x => x.id == i) = none := by
      rw [List.find?_eq_none]
      intro x hx
      simpa using hgone x hx
    simp [FinanceEntryService.delete, SQLAlchemyFinanceEntryRepository.delete, hf2]

/-- C9, witness: deleting id 1 from a store holding it returns true, and
deleting it again returns false. -/
theorem C9_delete_spec_witness :
    (FinanceEntryService.delete ⟨[⟨1, "Rent", 100, "Home", ⟨2024, 1, 1⟩⟩], 2⟩ 1).1 = true ∧
    (FinanceEntryService.delete
      (FinanceEntryService.delete ⟨[⟨1, "Rent", 100, "Home", ⟨2024, 1, 1⟩⟩], 2⟩ 1).2 1).1 =
      false :=
  ⟨(C9_delete_spec ⟨[⟨1, "Rent", 100, "Home", ⟨2024, 1, 1⟩⟩], 2⟩ (by decide) 1).1.mpr
      ⟨⟨1, "Rent", 100, "Home", ⟨2024, 1, 1⟩⟩, by decide, rfl⟩,
    (C9_delete_spec ⟨[⟨1, "Rent", 100, "Home", ⟨2024, 1, 1⟩⟩], 2⟩ (by decide) 1).2.2.2⟩

/-- C10: in a service update, a field supplied as `None` behaves exactly
like an absent field — the update is the same operation with that field
dropped — and when the entry exists the update succeeds (no validation
error), overwriting exactly the fields supplied with a non-`None`
value. -/
theorem C10_null_as_absent (db : DB) (i : Nat) (k : UpdateArgs) :
    FinanceEntryService.update db i k =
      FinanceEntryService.update db i
        ⟨k.description.nullToAbsent, k.amount.nullToAbsent,
         k.category.nullToAbsent, k.date.nullToAbsent⟩ ∧
    (∀ e, SQLAlchemyFinanceEntryRepository.get_by_id db i = some e →
      (FinanceEntryService.update db i k).1 = .ok (applyKwargs e k)) := by
  have hap : ∀ e, applyKwargs e k =
      applyKwargs e ⟨k.description.nullToAbsent, k.amount.nullToAbsent,
        k.category.nullToAbsent, k.date.nullToAbsent⟩ := by
    intro e
    obtain ⟨kd, ka, kc, kt⟩ := k
    cases kd <;> cases ka <;> cases kc <;> cases kt <;> rfl
  constructor
  · unfold FinanceEntryService.update
    cases hg : SQLAlchemyFinanceEntryRepository.get_by_id db i with
    | none => rfl
    | some e =>
      show SQLAlchemyFinanceEntryRepository.update db (applyKwargs e k) =
        SQLAlchemyFinanceEntryRepository.update db
          (applyKwargs e ⟨k.description.nullToAbsent, k.amount.nullToAbsent,
            k.category.nullToAbsent, k.date.nullToAbsent⟩)
      rw [hap e]
  · intro e he
    rw [service_update_found db i k e he]

/-- C10, witness: an update of entry id 1 passing description and date
as `None` and amount 20 equals the update passing only amount 20, and it
succeeds, keeping description and date while overwriting the amount. -/
theorem C10_null_as_absent_witness :
    FinanceEntryService.update ⟨[⟨1, "Rent", 100, "Home", ⟨2024, 1, 1⟩⟩], 2⟩ 1
        ⟨.pynull, .given 20, .absent, .pynull⟩ =
      FinanceEntryService.update ⟨[⟨1, "Rent", 100, "Home", ⟨2024, 1, 1⟩⟩], 2⟩ 1
        ⟨.absent, .given 20, .absent, .absent⟩ ∧
    (FinanceEntryService.update ⟨[⟨1, "Rent", 100, "Home", ⟨2024, 1, 1⟩⟩], 2⟩ 1
        ⟨.pynull, .given 20, .absent, .pynull⟩).1 =
      .ok ⟨some 1, "Rent", 20, "Home", ⟨2024, 1, 1⟩⟩ :=
  ⟨(C10_null_as_absent ⟨[⟨1, "Rent", 100, "Home", ⟨2024, 1, 1⟩⟩], 2⟩ 1
      ⟨.pynull, .given 20, .absent, .pynull⟩).1,
   (C10_null_as_absent ⟨[⟨1, "Rent", 100, "Home", ⟨2024, 1, 1⟩⟩], 2⟩ 1
      ⟨.pynull, .given 20, .absent, .pynull⟩).2
     ⟨some 1, "Rent", 100, "Home", ⟨2024, 1, 1⟩⟩ (by decide)⟩

end FinanceTracker
